import Mathlib

/-!
Shallow embedding of the admission-control / rate-limiting subsystem
(`backend/middleware/rate_limiting.py`): the sliding-window counter with
its in-process and Redis-backed storage paths (`RateLimiter._check_limit_memory`,
`RateLimiter._check_limit_redis`), the two-window merge (`RateLimiter.check_rate_limit`),
client-identity derivation (`RateLimiter._get_client_identifier`), and the
HTTP middleware (`RateLimitMiddleware.dispatch`).

Wall-clock timestamps (`time.time()` floats) are modelled as rationals;
Python `int()` truncation toward zero is modelled by `pyInt`; Python
`min(list)` by `pyMin`; the Redis sorted set (whose members here are always
the decimal strings of integer epochs) by a duplicate-free list of integer
scores.
-/

/-- Python `int(x)` applied to a real-valued `x`: truncation toward zero
(floor for nonnegative arguments, ceiling for negative ones). -/
def pyInt (q : ℚ) : ℤ := if 0 ≤ q then ⌊q⌋ else ⌈q⌉

/-- Python `min(lst) if lst else fallback`: the least element of a list,
with an explicit fallback for the empty list. -/
def pyMin (l : List ℚ) (fallback : ℚ) : ℚ :=
  match l with
  | [] => fallback
  | x :: xs => xs.foldl min x

/-- The lazy purge in `_check_limit_memory` (lines 76-80): keep exactly the
timestamps strictly greater than `now - window_seconds`. -/
def pruneStore (store : List ℚ) (now : ℚ) (windowSeconds : ℕ) : List ℚ :=
  store.filter (fun ts => now - (windowSeconds : ℚ) < ts)

/-- The triple `(allowed, count, reset)` returned by `_check_limit_memory`
and `_check_limit_redis`. -/
structure CheckResult where
  allowed : Bool
  count : ℕ
  reset : ℤ
deriving DecidableEq

/-- First half of `_check_limit_memory` (lines 70-83): prune the stored
timestamps and read the resulting count.  Returns the pruned store (written
back to `self._memory_store[key]`) and the observed `request_count`. -/
def memPhaseA (store : List ℚ) (windowSeconds : ℕ) (now : ℚ) : List ℚ × ℕ :=
  let pruned := pruneStore store now windowSeconds
  (pruned, pruned.length)

/-- Second half of `_check_limit_memory` (lines 84-92): compare the observed
count against the limit; on rejection compute the reset from the oldest
stored timestamp and leave the store unchanged, on admission append `now`.
Reads the store as it stands when this half runs (relevant for interleaved
executions). -/
def memPhaseB (store : List ℚ) (observedCount : ℕ) (limit : ℕ)
    (windowSeconds : ℕ) (now : ℚ) : CheckResult × List ℚ :=
  if limit ≤ observedCount then
    (⟨false, observedCount, pyInt (pyMin store now + (windowSeconds : ℚ))⟩, store)
  else
    (⟨true, observedCount + 1, pyInt (now + (windowSeconds : ℚ))⟩, store ++ [now])

/-- `RateLimiter._check_limit_memory` (lines 68-92): the two phases run
back to back, as in a single uninterrupted call. -/
def checkLimitMemory (store : List ℚ) (limit : ℕ) (windowSeconds : ℕ)
    (now : ℚ) : CheckResult × List ℚ :=
  let a := memPhaseA store windowSeconds now
  memPhaseB a.1 a.2 limit windowSeconds now

/-- A sequence of memory-backend checks for one key, threading the stored
timestamp list through; returns the per-call results and the final store. -/
def runChecks (store : List ℚ) (limit : ℕ) (windowSeconds : ℕ) :
    List ℚ → List CheckResult × List ℚ
  | [] => ([], store)
  | t :: ts =>
    let r := checkLimitMemory store limit windowSeconds t
    let rest := runChecks r.2 limit windowSeconds ts
    (r.1 :: rest.1, rest.2)

/-- State of the Redis client as seen by `_check_limit_redis`: absent
(construction failed, line 96), raising on use (the `except` path, lines
124-126), or live with a sorted set of integer scores for the key. -/
inductive RedisBackend where
  | absent : RedisBackend
  | failing (zset : List ℤ) : RedisBackend
  | live (zset : List ℤ) : RedisBackend
deriving DecidableEq

/-- The score list held by a backend (empty for an absent client). -/
def RedisBackend.zsetOf : RedisBackend → List ℤ
  | .absent => []
  | .failing z => z
  | .live z => z

/-- `pipe.zremrangebyscore(key, 0, window_start)` (line 106): drop the
members whose score lies in the closed range `[0, window_start]`. -/
def redisPrune (zset : List ℤ) (windowStart : ℤ) : List ℤ :=
  zset.filter (fun s => ¬(0 ≤ s ∧ s ≤ windowStart))

/-- `pipe.zadd(key, \x7bstr(current_time): current_time\x7d)` (line 108): a sorted
set keyed by member string, so adding an already-present integer second is a
no-op for the cardinality. -/
def redisAdd (zset : List ℤ) (score : ℤ) : List ℤ :=
  if score ∈ zset then zset else zset ++ [score]

/-- `RateLimiter._check_limit_redis` (lines 94-126).  With an absent client
or a raising one, the call is answered by `_check_limit_memory` on the
in-process store.  On the live path the pipeline removes old scores, reads
the cardinality, adds the current (truncated-to-int) time and the decision
is made from the pre-add cardinality; the reset on rejection comes from a
`zrange` over the post-pipeline set. -/
def checkLimitRedis (backend : RedisBackend) (memStore : List ℚ)
    (limit : ℕ) (windowSeconds : ℕ) (now : ℚ) :
    CheckResult × List ℚ × RedisBackend :=
  match backend with
  | .absent =>
    let r := checkLimitMemory memStore limit windowSeconds now
    (r.1, r.2, .absent)
  | .failing zset =>
    let r := checkLimitMemory memStore limit windowSeconds now
    (r.1, r.2, .failing zset)
  | .live zset =>
    let currentTime : ℤ := pyInt now
    let windowStart : ℤ := currentTime - (windowSeconds : ℤ)
    let afterRemove := redisPrune zset windowStart
    let requestCount := afterRemove.length
    let afterAdd := redisAdd afterRemove currentTime
    if limit ≤ requestCount then
      let reset : ℤ :=
        match afterAdd with
        | [] => currentTime + (windowSeconds : ℤ)
        | x :: xs => xs.foldl min x + (windowSeconds : ℤ)
      (⟨false, requestCount, reset⟩, memStore, .live afterAdd)
    else
      (⟨true, requestCount + 1, currentTime + (windowSeconds : ℤ)⟩,
        memStore, .live afterAdd)

/-- The `rate_limit_info` dictionary built by `check_rate_limit`
(lines 177-181). -/
structure RateLimitInfo where
  limit : ℕ
  remaining : ℤ
  reset : ℤ
deriving DecidableEq

/-- The verdict merge of `check_rate_limit` (lines 159-181): overall
admission is the conjunction, and the reported figures come from the minute
window if it failed, else the hour window if it failed, else the minute
window (this last branch subtracts without clamping at zero, exactly as
line 174 does). -/
def mergeDecisions (rpm rph : ℕ) (mr hr : CheckResult) : Bool × RateLimitInfo :=
  (mr.allowed && hr.allowed,
    if mr.allowed = false then
      ⟨rpm, max 0 ((rpm : ℤ) - (mr.count : ℤ)), mr.reset⟩
    else if hr.allowed = false then
      ⟨rph, max 0 ((rph : ℤ) - (hr.count : ℤ)), hr.reset⟩
    else
      ⟨rpm, (rpm : ℤ) - (mr.count : ℤ), mr.reset⟩)

/-- The two per-key timestamp lists a single client/endpoint pair owns in
`self._memory_store` (one per window name). -/
structure RateLimiterState where
  minuteStore : List ℚ
  hourStore : List ℚ
deriving DecidableEq

/-- `RateLimiter.check_rate_limit` (lines 128-183) on the memory backend:
run the minute-window and hour-window checks (each takes its own
`time.time()` reading, hence the two time arguments) and merge. -/
def checkRateLimit (st : RateLimiterState) (rpm rph : ℕ) (nowM nowH : ℚ) :
    (Bool × RateLimitInfo) × RateLimiterState :=
  let mr := checkLimitMemory st.minuteStore rpm 60 nowM
  let hr := checkLimitMemory st.hourStore rph 3600 nowH
  (mergeDecisions rpm rph mr.1 hr.1, ⟨mr.2, hr.2⟩)

/-- Python truthiness of an optional string (`if user_id:` treats both
`None` and the empty string as false). -/
def pyTruthyStr (s : Option String) : Bool :=
  match s with
  | none => false
  | some v => !v.isEmpty

/-- `RateLimiter._get_client_identifier` (lines 47-61).  `xUserId` and
`xForwardedFor` are the `X-User-ID` and `X-Forwarded-For` header values
(`none` when absent), `clientHost` models `request.client` (`none` when the
transport supplies no peer).  A truthy user id wins; otherwise the first
entry of a truthy forwarded-for chain, stripped of surrounding whitespace,
wins over the peer address. -/
def getClientIdentifier (xUserId : Option String) (clientHost : Option String)
    (xForwardedFor : Option String) : String :=
  if pyTruthyStr xUserId then "user:" ++ xUserId.getD ""
  else
    let baseIp := match clientHost with
      | some h => h
      | none => "unknown"
    let clientIp :=
      if pyTruthyStr xForwardedFor then
        (((xForwardedFor.getD "").splitOn ",").headD "").trim
      else baseIp
    "ip:" ++ clientIp

/-- Character-list matching underlying `pyStartswith`. -/
def charsLead : List Char → List Char → Bool
  | [], _ => true
  | _ :: _, [] => false
  | p :: ps, c :: cs => p == c && charsLead ps cs

/-- Python `s.startswith(pre)`. -/
def pyStartswith (s : String) (pre : String) : Bool :=
  charsLead pre.data s.data

/-- `RateLimitMiddleware.is_exempt` (lines 207-209). -/
def isExempt (exemptPaths : List String) (path : String) : Bool :=
  exemptPaths.any (fun e => pyStartswith path e)

/-- The response object assembled by `dispatch`. -/
structure HttpResponse where
  statusCode : ℕ
  body : String
  headers : List (String × String)
deriving DecidableEq

/-- The f-string body of the 429 response (line 222). -/
def rejectBody (limit : ℕ) (reset : ℤ) : String :=
  "\x7b\"detail\": \"Rate limit exceeded. Limit: " ++ toString limit ++
    ", Reset at: " ++ toString reset ++ "\"\x7d"

/-- Outcome of one `RateLimitMiddleware.dispatch` call: exempt passthrough,
a terminal 429 response, or forwarding with quota headers stamped on the
downstream response. -/
inductive DispatchOutcome where
  | forwardedExempt : DispatchOutcome
  | rejected (resp : HttpResponse) : DispatchOutcome
  | forwarded (headers : List (String × String)) : DispatchOutcome
deriving DecidableEq

/-- `RateLimitMiddleware.dispatch` (lines 211-240) over the memory backend.
`nowM` and `nowH` are the clock readings taken inside the two window checks;
`respNow` is the separate `int(time.time())` reading taken while building
the Retry-After header (line 229). -/
def dispatch (exemptPaths : List String) (path : String)
    (st : RateLimiterState) (rpm rph : ℕ) (nowM nowH respNow : ℚ) :
    DispatchOutcome × RateLimiterState :=
  if isExempt exemptPaths path then (.forwardedExempt, st)
  else
    let r := checkRateLimit st rpm rph nowM nowH
    let info := r.1.2
    if r.1.1 then
      (.forwarded
        [("X-RateLimit-Limit", toString info.limit),
         ("X-RateLimit-Remaining", toString info.remaining),
         ("X-RateLimit-Reset", toString info.reset)], r.2)
    else
      (.rejected
        { statusCode := 429
        , body := rejectBody info.limit info.reset
        , headers :=
            [("X-RateLimit-Limit", toString info.limit),
             ("X-RateLimit-Remaining", toString info.remaining),
             ("X-RateLimit-Reset", toString info.reset),
             ("Retry-After", toString (info.reset - pyInt respNow))] }, r.2)

/-- Two concurrent `_check_limit_memory` calls on the same key, interleaved
at the boundary between reading `request_count` (line 83) and acting on it
(lines 84-91): first both callers prune and read, then both decide and
append.  Nothing in the source guards this boundary.  Returns both results
and the final shared store. -/
def racedPair (store : List ℚ) (limit windowSeconds : ℕ) (t1 t2 : ℚ) :
    CheckResult × CheckResult × List ℚ :=
  let a1 := memPhaseA store windowSeconds t1
  let a2 := memPhaseA a1.1 windowSeconds t2
  let b1 := memPhaseB a2.1 a1.2 limit windowSeconds t1
  let b2 := memPhaseB b1.2 a2.2 limit windowSeconds t2
  (b1.1, b2.1, b2.2)

/-- Modelled from the words of the spec for comparison with `mergeDecisions`:
the binding-quota selection of §4.2 with `remaining = max(0, limit -
count_after)` in every branch, including the both-windows-pass branch. -/
def specBindingInfo (rpm rph : ℕ) (mr hr : CheckResult) : RateLimitInfo :=
  if mr.allowed = false then
    ⟨rpm, max 0 ((rpm : ℤ) - (mr.count : ℤ)), mr.reset⟩
  else if hr.allowed = false then
    ⟨rph, max 0 ((rph : ℤ) - (hr.count : ℤ)), hr.reset⟩
  else
    ⟨rpm, max 0 ((rpm : ℤ) - (mr.count : ℤ)), mr.reset⟩

/-- Unfolded form of the memory check, used throughout the proofs. -/
theorem checkLimitMemory_eq (store : List ℚ) (limit windowSeconds : ℕ) (now : ℚ) :
    checkLimitMemory store limit windowSeconds now =
      if limit ≤ (pruneStore store now windowSeconds).length then
        (⟨false, (pruneStore store now windowSeconds).length,
           pyInt (pyMin (pruneStore store now windowSeconds) now + (windowSeconds : ℚ))⟩,
         pruneStore store now windowSeconds)
      else
        (⟨true, (pruneStore store now windowSeconds).length + 1,
           pyInt (now + (windowSeconds : ℚ))⟩,
         pruneStore store now windowSeconds ++ [now]) := rfl

/-- The memory check admits exactly when the pruned count is below the limit. -/
theorem checkLimitMemory_allowed_iff (store : List ℚ) (limit windowSeconds : ℕ)
    (now : ℚ) :
    (checkLimitMemory store limit windowSeconds now).1.allowed = true ↔
      (pruneStore store now windowSeconds).length < limit := by
  rw [checkLimitMemory_eq]
  split <;> simp <;> omega

/-- On rejection the memory check reports the pruned count (which is at
least the limit), the oldest-plus-window reset, and leaves the store as the
pruned list. -/
theorem checkLimitMemory_reject (store : List ℚ) (limit windowSeconds : ℕ)
    (now : ℚ)
    (h : (checkLimitMemory store limit windowSeconds now).1.allowed = false) :
    limit ≤ (pruneStore store now windowSeconds).length ∧
      checkLimitMemory store limit windowSeconds now =
        (⟨false, (pruneStore store now windowSeconds).length,
           pyInt (pyMin (pruneStore store now windowSeconds) now + (windowSeconds : ℚ))⟩,
         pruneStore store now windowSeconds) := by
  rw [checkLimitMemory_eq] at h ⊢
  split at h
  · next hle => exact ⟨hle, by simp [hle]⟩
  · simp at h

/-- On admission the memory check reports the pruned count plus one and
appends the current timestamp. -/
theorem checkLimitMemory_allow (store : List ℚ) (limit windowSeconds : ℕ)
    (now : ℚ)
    (h : (checkLimitMemory store limit windowSeconds now).1.allowed = true) :
    (pruneStore store now windowSeconds).length < limit ∧
      checkLimitMemory store limit windowSeconds now =
        (⟨true, (pruneStore store now windowSeconds).length + 1,
           pyInt (now + (windowSeconds : ℚ))⟩,
         pruneStore store now windowSeconds ++ [now]) := by
  rw [checkLimitMemory_eq] at h ⊢
  split at h
  · simp at h
  · next hlt =>
    refine ⟨by omega, ?_⟩
    rw [if_neg hlt]

/-- Python int truncation never undershoots its argument by a full unit. -/
theorem pyInt_lt_add_one (q : ℚ) : q < (pyInt q : ℚ) + 1 := by
  unfold pyInt
  split
  · exact_mod_cast Int.lt_floor_add_one q
  · have := Int.le_ceil q
    linarith

/-- The Python minimum of a nonempty list is one of its elements. -/
theorem pyMin_mem (l : List ℚ) (fallback : ℚ) (h : l ≠ []) :
    pyMin l fallback ∈ l := by
  match l with
  | x :: xs =>
    show List.foldl min x xs ∈ x :: xs
    clear h
    induction xs generalizing x with
    | nil => simp
    | cons y ys ih =>
      have hmem := ih (min x y)
      rcases min_choice x y with hc | hc <;>
        rw [List.foldl_cons] <;>
        rcases List.mem_cons.mp hmem with he | he <;>
        simp [he, hc] at * <;> simp_all

/-- Filtering out a present element strictly shrinks a list. -/
theorem length_filter_lt_of_mem {α : Type} (l : List α) (p : α → Bool) (x : α)
    (hx : x ∈ l) (hpx : p x = false) :
    (l.filter p).length < l.length :=
  List.length_filter_lt_length_iff_exists.mpr ⟨x, hx, by simp [hpx]⟩

/-- Running a sequence of checks splits along list concatenation. -/
theorem runChecks_append (limit windowSeconds : ℕ) (ts1 ts2 : List ℚ) :
    ∀ store : List ℚ,
      runChecks store limit windowSeconds (ts1 ++ ts2) =
        ((runChecks store limit windowSeconds ts1).1 ++
           (runChecks (runChecks store limit windowSeconds ts1).2 limit
             windowSeconds ts2).1,
         (runChecks (runChecks store limit windowSeconds ts1).2 limit
           windowSeconds ts2).2) := by
  induction ts1 with
  | nil => intro store; simp [runChecks]
  | cons t ts ih => intro store; simp [runChecks, ih]

/-- When all of the first `k+1` arrival times lie within one window span,
the pruning pass at time `f k` removes nothing from the first `k` recorded
timestamps. -/
theorem pruneStore_range_map (L windowSeconds k : ℕ) (f : ℕ → ℚ)
    (hmono : ∀ i j, i ≤ j → f i ≤ f j)
    (hspan : f L - f 0 < (windowSeconds : ℚ)) (hk : k ≤ L) :
    pruneStore ((List.range k).map f) (f k) windowSeconds
      = (List.range k).map f := by
  apply List.filter_eq_self.mpr
  intro a ha
  obtain ⟨i, hi, rfl⟩ := List.mem_map.mp ha
  have h1 : f 0 ≤ f i := hmono 0 i (Nat.zero_le i)
  have h2 : f k ≤ f L := hmono k L hk
  simp only [decide_eq_true_eq]
  linarith

/-- Invariant behind the boundary-exactness claim: starting from an empty
store, the first `k ≤ L` requests within one window span are all admitted
and the store then holds exactly their timestamps. -/
theorem c2RunInvariant (L windowSeconds : ℕ) (f : ℕ → ℚ)
    (hmono : ∀ i j, i ≤ j → f i ≤ f j)
    (hspan : f L - f 0 < (windowSeconds : ℚ)) :
    ∀ k, k ≤ L →
      (runChecks [] L windowSeconds ((List.range k).map f)).1.map
          CheckResult.allowed = List.replicate k true ∧
        (runChecks [] L windowSeconds ((List.range k).map f)).2
          = (List.range k).map f := by
  intro k
  induction k with
  | zero => intro _; simp [runChecks]
  | succ k ih =>
    intro hk
    have hkL : k < L := Nat.lt_of_succ_le hk
    obtain ⟨ih1, ih2⟩ := ih (Nat.le_of_lt hkL)
    have hnp := pruneStore_range_map L windowSeconds k f hmono hspan
      (Nat.le_of_lt hkL)
    rw [List.range_succ, List.map_append, runChecks_append, ih2]
    constructor
    · rw [List.map_append, ih1]
      simp [runChecks, checkLimitMemory_eq, hnp, Nat.not_le.mpr hkL]
      exact (List.replicate_add k 1 true).symm
    · simp [runChecks, checkLimitMemory_eq, hnp, Nat.not_le.mpr hkL]

/-- A rejecting memory check reports a count at least the limit. -/
theorem checkLimitMemory_count_ge (store : List ℚ) (limit windowSeconds : ℕ)
    (now : ℚ)
    (h : (checkLimitMemory store limit windowSeconds now).1.allowed = false) :
    limit ≤ (checkLimitMemory store limit windowSeconds now).1.count := by
  obtain ⟨hge, heq⟩ := checkLimitMemory_reject store limit windowSeconds now h
  rw [heq]
  exact hge

/-- An admitting memory check reports a count at most the limit. -/
theorem checkLimitMemory_count_le (store : List ℚ) (limit windowSeconds : ℕ)
    (now : ℚ)
    (h : (checkLimitMemory store limit windowSeconds now).1.allowed = true) :
    (checkLimitMemory store limit windowSeconds now).1.count ≤ limit := by
  obtain ⟨hlt, heq⟩ := checkLimitMemory_allow store limit windowSeconds now h
  rw [heq]
  exact hlt

/-- Whenever the merged verdict is a rejection and each rejecting window
reported a count at least its limit, the reported remaining quota is zero. -/
theorem mergeDecisions_remaining_zero (rpm rph : ℕ) (mr hr : CheckResult)
    (hm : mr.allowed = false → rpm ≤ mr.count)
    (hh : hr.allowed = false → rph ≤ hr.count)
    (h : (mergeDecisions rpm rph mr hr).1 = false) :
    (mergeDecisions rpm rph mr hr).2.remaining = 0 := by
  unfold mergeDecisions at h ⊢
  simp only at h ⊢
  rcases Bool.and_eq_false_iff.mp h with hma | hha
  · have := hm hma
    simp [hma]
    omega
  · by_cases hma : mr.allowed = false
    · have := hm hma
      simp [hma]
      omega
    · have hmt : mr.allowed = true := by
        revert hma; cases mr.allowed <;> simp
      have := hh hha
      simp [hmt, hha]
      omega

/-- C2: for a key with limit `L` and window `W` starting from no recorded
timestamps, with the `L+1` arrival times nondecreasing and all inside one
`W`-second span (last minus first strictly below `W`, i.e. they fit in a
half-open span of length `W`), each of the first `L` requests is allowed
and the `(L+1)`-th is rejected. -/
theorem c2_boundary_exactness (L windowSeconds : ℕ) (f : ℕ → ℚ)
    (hmono : ∀ i j, i ≤ j → f i ≤ f j)
    (hspan : f L - f 0 < (windowSeconds : ℚ)) :
    (runChecks [] L windowSeconds ((List.range (L + 1)).map f)).1.map
        CheckResult.allowed = List.replicate L true ++ [false] := by
  obtain ⟨h1, h2⟩ := c2RunInvariant L windowSeconds f hmono hspan L le_rfl
  have hnp := pruneStore_range_map L windowSeconds L f hmono hspan le_rfl
  rw [List.range_succ, List.map_append, runChecks_append, h2,
    List.map_append, h1]
  simp [runChecks, checkLimitMemory_eq, hnp]

/-- Witness for C2 at limit 2, window 60, arrivals at seconds 0, 1, 2. -/
theorem c2_boundary_exactness_witness :
    (runChecks [] 2 60 ((List.range (2 + 1)).map (fun i => (i : ℚ)))).1.map
        CheckResult.allowed = List.replicate 2 true ++ [false] :=
  c2_boundary_exactness 2 60 (fun i => (i : ℚ))
    (fun i j hij => by simpa using (Nat.cast_le (α := ℚ)).mpr hij)
    (by norm_num)

/-- C4: the overall verdict is the conjunction of the minute-window and
hour-window admissions, and the reported figures follow the binding
selection with `remaining = max(0, limit - count_after)` of the reported
window (in the both-pass branch the code subtracts without clamping, which
agrees with the clamped form because an admitted count never exceeds its
limit). -/
theorem c4_verdict_and_binding_window (st : RateLimiterState) (rpm rph : ℕ)
    (nowM nowH : ℚ) :
    (checkRateLimit st rpm rph nowM nowH).1.1 =
        ((checkLimitMemory st.minuteStore rpm 60 nowM).1.allowed &&
          (checkLimitMemory st.hourStore rph 3600 nowH).1.allowed) ∧
      (checkRateLimit st rpm rph nowM nowH).1.2 =
        specBindingInfo rpm rph (checkLimitMemory st.minuteStore rpm 60 nowM).1
          (checkLimitMemory st.hourStore rph 3600 nowH).1 := by
  refine ⟨rfl, ?_⟩
  unfold checkRateLimit mergeDecisions specBindingInfo
  simp only
  cases hma : (checkLimitMemory st.minuteStore rpm 60 nowM).1.allowed with
  | false => simp [hma]
  | true =>
    cases hha : (checkLimitMemory st.hourStore rph 3600 nowH).1.allowed with
    | false => simp [hma, hha]
    | true =>
      have hct := checkLimitMemory_count_le st.minuteStore rpm 60 nowM hma
      simp [hma, hha]
      omega

/-- C8: with an absent Redis client, or with the remote operation raising,
the check is answered by the in-process path for that invocation — same
decision triple, same in-process store update — and no failure is ever
surfaced (the function returns normally in every backend state). -/
theorem c8_fallback_on_failure (memStore : List ℚ) (limit windowSeconds : ℕ)
    (now : ℚ) (zset : List ℤ) :
    checkLimitRedis .absent memStore limit windowSeconds now =
        ((checkLimitMemory memStore limit windowSeconds now).1,
         (checkLimitMemory memStore limit windowSeconds now).2,
         RedisBackend.absent) ∧
      checkLimitRedis (.failing zset) memStore limit windowSeconds now =
        ((checkLimitMemory memStore limit windowSeconds now).1,
         (checkLimitMemory memStore limit windowSeconds now).2,
         RedisBackend.failing zset) :=
  ⟨rfl, rfl⟩

/-- C9 evidence: the in-process check-and-increment runs with no lock, so
interleaving two checks on the same fresh key (limit 1, window 60, both at
time 100) at the unguarded boundary between reading the count and acting on
it admits both requests and records both timestamps, though only one slot
remained. -/
theorem c9_check_then_act_race :
    (racedPair [] 1 60 100 100).1.allowed = true ∧
      (racedPair [] 1 60 100 100).2.1.allowed = true ∧
      (racedPair [] 1 60 100 100).2.2.length = 2 :=
  ⟨rfl, rfl, rfl⟩

/-- C1 counterexample: the Redis implementation records the current
timestamp of the current request even when it rejects.  With limit 1, window 60, a live
sorted set holding score 50 and the current time 60, the check rejects yet
the post-pipeline set contains 60. -/
theorem c1_redis_records_on_reject :
    (checkLimitRedis (.live [50]) [] 1 60 60).1.allowed = false ∧
      (60 : ℤ) ∈ (checkLimitRedis (.live [50]) [] 1 60 60).2.2.zsetOf := by
  have h60 : pyInt (60 : ℚ) = 60 := by norm_num [pyInt]
  constructor <;>
    norm_num [checkLimitRedis, h60, redisPrune, redisAdd,
      RedisBackend.zsetOf, List.filter_cons]

/-- C1 amended: the in-process implementation never records the current
timestamp on a rejection (the stored list is exactly the pruned list),
while the pipeline of the Redis implementation unconditionally adds the current
(integer) timestamp to the sorted set, rejected or not. -/
theorem c1_reject_recording :
    (∀ (store : List ℚ) (limit windowSeconds : ℕ) (now : ℚ),
        (checkLimitMemory store limit windowSeconds now).1.allowed = false →
        (checkLimitMemory store limit windowSeconds now).2 =
          pruneStore store now windowSeconds) ∧
      (∀ (zset : List ℤ) (memStore : List ℚ) (limit windowSeconds : ℕ)
          (now : ℚ),
        pyInt now ∈
          (checkLimitRedis (.live zset) memStore limit windowSeconds
            now).2.2.zsetOf) := by
  constructor
  · intro store limit windowSeconds now h
    rw [(checkLimitMemory_reject store limit windowSeconds now h).2]
  · intro zset memStore limit windowSeconds now
    unfold checkLimitRedis
    simp only
    split <;> simp [RedisBackend.zsetOf, redisAdd] <;> split <;> simp_all

/-- Witness for C1 (amended): a concrete rejected in-process check leaves
the store at its pruned value, and a concrete live Redis check deposits the
current timestamp. -/
theorem c1_reject_recording_witness :
    (checkLimitMemory [(21/2 : ℚ)] 1 60 20).2 =
        pruneStore [(21/2 : ℚ)] 20 60 ∧
      pyInt (60 : ℚ) ∈
        (checkLimitRedis (.live [50]) [] 1 60 60).2.2.zsetOf :=
  ⟨c1_reject_recording.1 [(21/2 : ℚ)] 1 60 20
      (by norm_num [checkLimitMemory_eq, pruneStore, List.filter_cons]),
    c1_reject_recording.2 [50] [] 1 60 60⟩

/-- C3: whenever the two-window check rejects (with positive limits, so the
defensive empty-set fallback cannot fire), the reported remaining quota is
zero and the reported reset is the oldest live timestamp of the binding
exceeded window — the minute window if it failed, else the hour window —
plus the length of that window, truncated to an integer epoch. -/
theorem c3_rejection_reports (st : RateLimiterState) (rpm rph : ℕ)
    (nowM nowH : ℚ) (hrpm : 0 < rpm) (hrph : 0 < rph)
    (hrej : (checkRateLimit st rpm rph nowM nowH).1.1 = false) :
    (checkRateLimit st rpm rph nowM nowH).1.2.remaining = 0 ∧
      (((checkLimitMemory st.minuteStore rpm 60 nowM).1.allowed = false ∧
          pruneStore st.minuteStore nowM 60 ≠ [] ∧
          (checkRateLimit st rpm rph nowM nowH).1.2.reset =
            pyInt (pyMin (pruneStore st.minuteStore nowM 60) nowM + (60 : ℚ))) ∨
        ((checkLimitMemory st.minuteStore rpm 60 nowM).1.allowed = true ∧
          (checkLimitMemory st.hourStore rph 3600 nowH).1.allowed = false ∧
          pruneStore st.hourStore nowH 3600 ≠ [] ∧
          (checkRateLimit st rpm rph nowM nowH).1.2.reset =
            pyInt (pyMin (pruneStore st.hourStore nowH 3600) nowH +
              (3600 : ℚ)))) := by
  refine ⟨mergeDecisions_remaining_zero rpm rph _ _
    (fun h => checkLimitMemory_count_ge _ _ _ _ h)
    (fun h => checkLimitMemory_count_ge _ _ _ _ h) hrej, ?_⟩
  cases hma : (checkLimitMemory st.minuteStore rpm 60 nowM).1.allowed with
  | false =>
    left
    obtain ⟨hge, heq⟩ := checkLimitMemory_reject st.minuteStore rpm 60 nowM hma
    have hres : (checkLimitMemory st.minuteStore rpm 60 nowM).1.reset =
        pyInt (pyMin (pruneStore st.minuteStore nowM 60) nowM + (60 : ℚ)) := by
      rw [heq]; norm_num
    refine ⟨rfl, List.length_pos.mp (by omega), ?_⟩
    show (mergeDecisions rpm rph (checkLimitMemory st.minuteStore rpm 60 nowM).1
      (checkLimitMemory st.hourStore rph 3600 nowH).1).2.reset = _
    simp [mergeDecisions, hma, hres, Nat.cast_ofNat]
  | true =>
    right
    have hand : ((checkLimitMemory st.minuteStore rpm 60 nowM).1.allowed &&
        (checkLimitMemory st.hourStore rph 3600 nowH).1.allowed) = false := hrej
    rw [hma] at hand
    have hha : (checkLimitMemory st.hourStore rph 3600 nowH).1.allowed = false := by
      simpa using hand
    obtain ⟨hge, heq⟩ := checkLimitMemory_reject st.hourStore rph 3600 nowH hha
    have hres : (checkLimitMemory st.hourStore rph 3600 nowH).1.reset =
        pyInt (pyMin (pruneStore st.hourStore nowH 3600) nowH + (3600 : ℚ)) := by
      rw [heq]; norm_num
    refine ⟨rfl, hha, List.length_pos.mp (by omega), ?_⟩
    show (mergeDecisions rpm rph (checkLimitMemory st.minuteStore rpm 60 nowM).1
      (checkLimitMemory st.hourStore rph 3600 nowH).1).2.reset = _
    simp [mergeDecisions, hma, hha, hres, Nat.cast_ofNat]

/-- Witness for C3: one stale-free minute-window timestamp at 10.5 with
limit 1 blocks a request at time 20; remaining is 0 and the reset is
`int(10.5 + 60) = 70`, reported from the minute window. -/
theorem c3_rejection_reports_witness :
    (checkRateLimit ⟨[(21/2 : ℚ)], [(21/2 : ℚ)]⟩ 1 1000 20 20).1.2.remaining
        = 0 ∧
      (((checkLimitMemory [(21/2 : ℚ)] 1 60 20).1.allowed = false ∧
          pruneStore [(21/2 : ℚ)] 20 60 ≠ [] ∧
          (checkRateLimit ⟨[(21/2 : ℚ)], [(21/2 : ℚ)]⟩ 1 1000 20 20).1.2.reset =
            pyInt (pyMin (pruneStore [(21/2 : ℚ)] 20 60) 20 + (60 : ℚ))) ∨
        ((checkLimitMemory [(21/2 : ℚ)] 1 60 20).1.allowed = true ∧
          (checkLimitMemory [(21/2 : ℚ)] 1000 3600 20).1.allowed = false ∧
          pruneStore [(21/2 : ℚ)] 20 3600 ≠ [] ∧
          (checkRateLimit ⟨[(21/2 : ℚ)], [(21/2 : ℚ)]⟩ 1 1000 20 20).1.2.reset =
            pyInt (pyMin (pruneStore [(21/2 : ℚ)] 20 3600) 20 + (3600 : ℚ)))) :=
  c3_rejection_reports ⟨[(21/2 : ℚ)], [(21/2 : ℚ)]⟩ 1 1000 20 20
    (by norm_num) (by norm_num)
    (by norm_num [checkRateLimit, mergeDecisions, checkLimitMemory_eq,
      pruneStore, List.filter_cons])

/-- C5 counterexample: a key blocked at time 20 with one live timestamp at
10.5 reports reset 70 (int-truncated from 70.5), yet a fresh check at
70.25 — strictly past the reported reset — is still rejected, because the
oldest timestamp only leaves the window at 70.5. -/
theorem c5_blocked_just_past_reset :
    (checkLimitMemory [(21/2 : ℚ)] 1 60 20).1.allowed = false ∧
      (checkLimitMemory [(21/2 : ℚ)] 1 60 20).1.reset = 70 ∧
      ((70 : ℚ) < 281/4) ∧
      (checkLimitMemory (checkLimitMemory [(21/2 : ℚ)] 1 60 20).2 1 60
          (281/4 : ℚ)).1.allowed = false := by
  have h1 : checkLimitMemory [(21/2 : ℚ)] 1 60 20 =
      (⟨false, 1, 70⟩, [(21/2 : ℚ)]) := by
    norm_num [checkLimitMemory_eq, pruneStore, List.filter_cons, pyMin, pyInt]
  refine ⟨by rw [h1], by rw [h1], by norm_num, ?_⟩
  rw [h1]
  norm_num [checkLimitMemory_eq, pruneStore, List.filter_cons]

/-- C5 amended: a key that is exactly at its (positive) limit and blocked
admits again once the clock reaches `reset_epoch + 1`; the reported
`reset_epoch` is the integer truncation of `oldest + window` and can
under-report the true recovery instant by up to one second, so merely
passing `reset_epoch` itself is not always enough. -/
theorem c5_recovery_after_reset (store : List ℚ) (limit windowSeconds : ℕ)
    (t tLater : ℚ) (hlim : 0 < limit)
    (hrej : (checkLimitMemory store limit windowSeconds t).1.allowed = false)
    (hatLimit : (pruneStore store t windowSeconds).length = limit)
    (hlater : ((checkLimitMemory store limit windowSeconds t).1.reset : ℚ) + 1
      ≤ tLater) :
    (checkLimitMemory (checkLimitMemory store limit windowSeconds t).2 limit
        windowSeconds tLater).1.allowed = true := by
  obtain ⟨hge, heq⟩ := checkLimitMemory_reject store limit windowSeconds t hrej
  have hpost : (checkLimitMemory store limit windowSeconds t).2 =
      pruneStore store t windowSeconds := by rw [heq]
  have hres : (checkLimitMemory store limit windowSeconds t).1.reset =
      pyInt (pyMin (pruneStore store t windowSeconds) t + (windowSeconds : ℚ)) := by
    rw [heq]
  rw [hpost, checkLimitMemory_allowed_iff]
  have hne : pruneStore store t windowSeconds ≠ [] :=
    List.length_pos.mp (by omega)
  have hmem : pyMin (pruneStore store t windowSeconds) t ∈
      pruneStore store t windowSeconds :=
    pyMin_mem (pruneStore store t windowSeconds) t hne
  have hkey : pyMin (pruneStore store t windowSeconds) t + (windowSeconds : ℚ)
      < tLater := by
    have h1 := pyInt_lt_add_one
      (pyMin (pruneStore store t windowSeconds) t + (windowSeconds : ℚ))
    rw [← hres] at h1
    linarith
  have hfail : (fun ts => decide (tLater - (windowSeconds : ℚ) < ts))
      (pyMin (pruneStore store t windowSeconds) t) = false := by
    simp only [decide_eq_false_iff_not]
    intro hcon
    linarith
  have hlt := length_filter_lt_of_mem (pruneStore store t windowSeconds)
    (fun ts => decide (tLater - (windowSeconds : ℚ) < ts))
    (pyMin (pruneStore store t windowSeconds) t) hmem hfail
  unfold pruneStore at hlt hatLimit ⊢
  omega

/-- Witness for C5 (amended): the key blocked at time 20 with reset 70 is
admitted again at time 71. -/
theorem c5_recovery_after_reset_witness :
    (checkLimitMemory (checkLimitMemory [(21/2 : ℚ)] 1 60 20).2 1 60
        71).1.allowed = true :=
  c5_recovery_after_reset [(21/2 : ℚ)] 1 60 20 71 (by norm_num)
    (by norm_num [checkLimitMemory_eq, pruneStore, List.filter_cons])
    (by norm_num [pruneStore, List.filter_cons])
    (by norm_num [checkLimitMemory_eq, pruneStore, List.filter_cons, pyMin,
      pyInt])

/-- C6 counterexample: a timestamp exactly equal to `now - window_seconds`
lies in the closed interval `[now - window_seconds, now]` but is purged by
the strict comparison in the check: with `now = 70` and a 60-second window, the
stored timestamp 10 is removed. -/
theorem c6_boundary_timestamp_purged :
    (10 : ℚ) ∈ [(10 : ℚ)] ∧
      (70 : ℚ) - ((60 : ℕ) : ℚ) ≤ 10 ∧
      (10 : ℚ) ≤ 70 ∧
      pruneStore [(10 : ℚ)] 70 60 = [] := by
  refine ⟨by norm_num, by norm_num, by norm_num, ?_⟩
  norm_num [pruneStore, List.filter_cons]

/-- C6 amended: on every check, when every stored timestamp is at most
`now` and the window is positive, exactly the timestamps in the half-open
interval `(now - window_seconds, now]` are kept as live (one exactly at
`now - window_seconds` is purged), and the store the check writes back
contains only timestamps in that interval — stale entries are removed by
the check itself, not by any background process. -/
theorem c6_halfopen_live_window (store : List ℚ) (limit windowSeconds : ℕ)
    (now ts : ℚ) (hW : 0 < windowSeconds)
    (hle : ∀ u ∈ store, u ≤ now) :
    (ts ∈ pruneStore store now windowSeconds ↔
        (ts ∈ store ∧ now - (windowSeconds : ℚ) < ts ∧ ts ≤ now)) ∧
      (ts ∈ (checkLimitMemory store limit windowSeconds now).2 →
        (now - (windowSeconds : ℚ) < ts ∧ ts ≤ now)) := by
  have hmemiff : ts ∈ pruneStore store now windowSeconds ↔
      (ts ∈ store ∧ now - (windowSeconds : ℚ) < ts) := by
    simp [pruneStore, List.mem_filter]
  constructor
  · rw [hmemiff]
    constructor
    · rintro ⟨h1, h2⟩
      exact ⟨h1, h2, hle ts h1⟩
    · rintro ⟨h1, h2, -⟩
      exact ⟨h1, h2⟩
  · intro hts
    rw [checkLimitMemory_eq] at hts
    split at hts
    · simp only at hts
      obtain ⟨h1, h2⟩ := hmemiff.mp hts
      exact ⟨h2, hle ts h1⟩
    · simp only [List.mem_append] at hts
      rcases hts with hts | hts
      · obtain ⟨h1, h2⟩ := hmemiff.mp hts
        exact ⟨h2, hle ts h1⟩
      · simp only [List.mem_singleton] at hts
        subst hts
        constructor
        · have : (0 : ℚ) < (windowSeconds : ℚ) := by exact_mod_cast hW
          linarith
        · exact le_rfl

/-- Witness for C6 (amended): with stored timestamps 5 and 10, a check at
time 70 and a 60-second window keeps neither (10 sits exactly on the
boundary), and the written-back store stays inside the half-open window. -/
theorem c6_halfopen_live_window_witness :
    ((10 : ℚ) ∈ pruneStore [(5 : ℚ), 10] 70 60 ↔
        ((10 : ℚ) ∈ [(5 : ℚ), 10] ∧ (70 : ℚ) - ((60 : ℕ) : ℚ) < 10 ∧
          (10 : ℚ) ≤ 70)) ∧
      ((10 : ℚ) ∈ (checkLimitMemory [(5 : ℚ), 10] 3 60 70).2 →
        ((70 : ℚ) - ((60 : ℕ) : ℚ) < 10 ∧ (10 : ℚ) ≤ 70)) :=
  c6_halfopen_live_window [(5 : ℚ), 10] 3 60 70 10 (by norm_num)
    (by intro u hu; fin_cases hu <;> norm_num)

/-- C7 amended: a non-exempt rejected request is answered with status 429,
the fixed JSON detail body carrying the binding limit and reset epoch, the
three quota headers with `X-RateLimit-Remaining` equal to `"0"`, and a
`Retry-After` equal to `reset_epoch - int(now)` computed with no flooring
at zero (so it can be negative when the response is produced after the
reset instant). -/
theorem c7_rejection_response (exemptPaths : List String) (path : String)
    (st : RateLimiterState) (rpm rph : ℕ) (nowM nowH respNow : ℚ)
    (hex : isExempt exemptPaths path = false)
    (hrej : (checkRateLimit st rpm rph nowM nowH).1.1 = false) :
    (dispatch exemptPaths path st rpm rph nowM nowH respNow).1 =
      DispatchOutcome.rejected
        { statusCode := 429
        , body := rejectBody (checkRateLimit st rpm rph nowM nowH).1.2.limit
            (checkRateLimit st rpm rph nowM nowH).1.2.reset
        , headers :=
            [("X-RateLimit-Limit",
                toString (checkRateLimit st rpm rph nowM nowH).1.2.limit),
             ("X-RateLimit-Remaining", "0"),
             ("X-RateLimit-Reset",
                toString (checkRateLimit st rpm rph nowM nowH).1.2.reset),
             ("Retry-After",
                toString ((checkRateLimit st rpm rph nowM nowH).1.2.reset -
                  pyInt respNow))] } := by
  have hrem : (checkRateLimit st rpm rph nowM nowH).1.2.remaining = 0 :=
    mergeDecisions_remaining_zero rpm rph _ _
      (fun h => checkLimitMemory_count_ge _ _ _ _ h)
      (fun h => checkLimitMemory_count_ge _ _ _ _ h) hrej
  unfold dispatch
  simp [hex, hrej, hrem]
  rfl

/-- Witness for C7 (amended): the concrete blocked key of the C3 scenario,
checked on a non-exempt path. -/
theorem c7_rejection_response_witness :
    (dispatch ["/health", "/docs", "/openapi.json", "/redoc"]
        "/api/v1/agents/" ⟨[(21/2 : ℚ)], [(21/2 : ℚ)]⟩ 1 1000 20 20 85).1 =
      DispatchOutcome.rejected
        { statusCode := 429
        , body := rejectBody
            (checkRateLimit ⟨[(21/2 : ℚ)], [(21/2 : ℚ)]⟩ 1 1000 20 20).1.2.limit
            (checkRateLimit ⟨[(21/2 : ℚ)], [(21/2 : ℚ)]⟩ 1 1000 20 20).1.2.reset
        , headers :=
            [("X-RateLimit-Limit",
                toString (checkRateLimit ⟨[(21/2 : ℚ)], [(21/2 : ℚ)]⟩ 1 1000
                  20 20).1.2.limit),
             ("X-RateLimit-Remaining", "0"),
             ("X-RateLimit-Reset",
                toString (checkRateLimit ⟨[(21/2 : ℚ)], [(21/2 : ℚ)]⟩ 1 1000
                  20 20).1.2.reset),
             ("Retry-After",
                toString ((checkRateLimit ⟨[(21/2 : ℚ)], [(21/2 : ℚ)]⟩ 1 1000
                  20 20).1.2.reset - pyInt 85))] } :=
  c7_rejection_response ["/health", "/docs", "/openapi.json", "/redoc"]
    "/api/v1/agents/" ⟨[(21/2 : ℚ)], [(21/2 : ℚ)]⟩ 1 1000 20 20 85 rfl
    (by norm_num [checkRateLimit, mergeDecisions, checkLimitMemory_eq,
      pruneStore, List.filter_cons])

/-- C7 counterexample: the same rejected request answered 15 seconds after
the reset instant carries `Retry-After: -15` — the code does not floor the
value at zero as the claim states. -/
theorem c7_retry_after_negative :
    (dispatch ["/health", "/docs", "/openapi.json", "/redoc"]
        "/api/v1/agents/" ⟨[(21/2 : ℚ)], [(21/2 : ℚ)]⟩ 1 1000 20 20 85).1 =
      DispatchOutcome.rejected
        { statusCode := 429
        , body := rejectBody 1 70
        , headers :=
            [("X-RateLimit-Limit", "1"), ("X-RateLimit-Remaining", "0"),
             ("X-RateLimit-Reset", "70"), ("Retry-After", "-15")] } ∧
      (-15 : ℤ) < 0 := by
  have hcrl : checkRateLimit ⟨[(21/2 : ℚ)], [(21/2 : ℚ)]⟩ 1 1000 20 20 =
      ((false, ⟨1, 0, 70⟩), ⟨[(21/2 : ℚ)], [(21/2 : ℚ), 20]⟩) := by
    norm_num [checkRateLimit, mergeDecisions, checkLimitMemory_eq, pruneStore,
      List.filter_cons, pyMin, pyInt]
  have h85 : pyInt (85 : ℚ) = 85 := by norm_num [pyInt]
  refine ⟨?_, by norm_num⟩
  have hex : isExempt ["/health", "/docs", "/openapi.json", "/redoc"]
      "/api/v1/agents/" = false := rfl
  unfold dispatch
  simp [hcrl, h85, hex]
  exact ⟨rfl, rfl, rfl, rfl⟩

/-- Helper: an identity in the `ip:` namespace never coincides with one in
the `user:` namespace. -/
theorem ip_ne_user (a b : String) : "ip:" ++ a ≠ "user:" ++ b := by
  intro h
  have hd := congrArg String.data h
  rw [String.data_append, String.data_append] at hd
  have h1 : ("ip:").data = ['i', 'p', ':'] := rfl
  have h2 : ("user:").data = ['u', 's', 'e', 'r', ':'] := rfl
  rw [h1, h2] at hd
  injection hd with hc _
  exact absurd hc (by decide)

/-- C10: identity derivation treats a present-but-empty header exactly like
an absent one — an empty `X-User-ID` yields the same identity as no
`X-User-ID` and that identity is never of the form `user:<id>`, and an
empty `X-Forwarded-For` falls back to the peer address exactly as an absent
one does. -/
theorem c10_empty_header_like_absent (clientHost xForwardedFor
    uid : Option String) :
    getClientIdentifier (some "") clientHost xForwardedFor =
        getClientIdentifier none clientHost xForwardedFor ∧
      (∀ u : String,
        getClientIdentifier (some "") clientHost xForwardedFor ≠
          "user:" ++ u) ∧
      getClientIdentifier uid clientHost (some "") =
        getClientIdentifier uid clientHost none := by
  refine ⟨rfl, ?_, ?_⟩
  · intro u
    have hf : pyTruthyStr (some "") = false := rfl
    unfold getClientIdentifier
    rw [hf]
    simp only [Bool.false_eq_true, if_false]
    exact ip_ne_user _ u
  · unfold getClientIdentifier
    have he : ("").isEmpty = true := rfl
    cases huid : pyTruthyStr uid <;> simp [huid, pyTruthyStr, he]
